import Mathlib

/-!
Verification of `src/bilder/segment_image.py` (`segment_objects`).

The script is a linear pipeline over one in-memory raster:
load → grayscale → inverse-binary threshold at 240 → morphological
close then open with a 5×5 all-ones kernel → external contours →
area filter (> 1000) → per-contour padded crop, silhouette mask,
alpha compositing, PNG output.

The embedding below translates the repository's own logic concretely.
Calls into OpenCV whose internals are not part of this repository are
modelled as follows: per-pixel documented formulas (`cv2.threshold`,
`cv2.contourArea`, `cv2.boundingRect`, morphology with an all-ones
kernel) are implemented from their documented semantics; genuinely
external algorithms (`cv2.imread`, the BGR→GRAY luminance weights,
`cv2.findContours`, the rasterisation rule of `cv2.drawContours`,
`Path.parent`) are parameters of the pipeline, bundled in `Lib`.
-/

/-- A point with integer coordinates, as stored in an OpenCV contour. -/
structure Pt where
  x : Int
  y : Int
deriving DecidableEq, Repr

/-- A contour: ordered list of boundary points (full-image coordinates). -/
abbrev Contour := List Pt

/-- A 3-channel BGR raster, `img` in the source: dimensions plus a pixel
function returning the (B,G,R) triple at (row, col). -/
structure Image where
  height : Nat
  width : Nat
  pix : Nat → Nat → Nat × Nat × Nat

/-- A single-channel 8-bit raster (grayscale image or binary mask). -/
structure Gray where
  height : Nat
  width : Nat
  pix : Nat → Nat → Nat

/-- A 4-channel BGRA raster, `roi_rgba` in the source. -/
structure RGBA where
  height : Nat
  width : Nat
  pix : Nat → Nat → Nat × Nat × Nat × Nat

/-- External library pieces the script calls whose algorithms are not part
of this repository: the BGR→GRAY per-pixel luminance, contour extraction
(`cv2.findContours` with RETR_EXTERNAL, CHAIN_APPROX_SIMPLE), the
filled-silhouette membership test of `cv2.drawContours` with thickness -1
(`inFill c px py` decides whether point (px,py) is rasterised inside the
filled silhouette of contour `c`), and `Path.parent`. -/
structure Lib where
  lum : Nat × Nat × Nat → Nat
  findContours : Gray → List Contour
  inFill : Contour → Int → Int → Bool
  parent : String → String

/-- Models `gray = cv2.cvtColor(img, cv2.COLOR_BGR2GRAY)` (line 17): a per-pixel
luminance map, shape preserved. -/
def grayStage (lib : Lib) (img : Image) : Gray :=
  ⟨img.height, img.width, fun i j => lib.lum (img.pix i j)⟩

/-- Models `cv2.threshold(gray, 240, 255, cv2.THRESH_BINARY_INV)` per pixel
(line 21).  OpenCV semantics of THRESH_BINARY_INV: the output is 0 where
the source value is strictly greater than the threshold, and maxval
elsewhere. -/
def threshPix (v : Nat) : Nat :=
  if 240 < v then 0 else 255

/-- The binarization stage applied to the whole grayscale image. -/
def threshStage (g : Gray) : Gray :=
  ⟨g.height, g.width, fun i j => threshPix (g.pix i j)⟩

/-- A structuring element, `np.ones((5, 5), np.uint8)` being the one the
source builds (line 24). -/
structure Kernel where
  rows : Nat
  cols : Nat
  val : Nat → Nat → Nat

/-- Models `np.ones((r, c), np.uint8)`. -/
def npOnes (r c : Nat) : Kernel :=
  ⟨r, c, fun _ _ => 1⟩

/-- Models `kernel = np.ones((5, 5), np.uint8)` (line 24). -/
def kernel : Kernel := npOnes 5 5

/-- The values of `m` under the kernel window anchored at the centre of
`k` over pixel (i, j), keeping only in-bounds positions where the kernel
is nonzero (OpenCV's default border for morphologyEx makes out-of-bounds
positions neutral). -/
def windowVals (k : Kernel) (m : Gray) (i j : Nat) : List Nat :=
  (List.range k.rows).flatMap fun di =>
    (List.range k.cols).filterMap fun dj =>
      if k.val di dj ≠ 0 then
        let r : Int := (i : Int) + di - (k.rows / 2 : Nat)
        let c : Int := (j : Int) + dj - (k.cols / 2 : Nat)
        if 0 ≤ r ∧ r < (m.height : Int) ∧ 0 ≤ c ∧ c < (m.width : Int) then
          some (m.pix r.toNat c.toNat)
        else none
      else none

/-- Models `cv2.dilate`: per-pixel maximum over the structuring element. -/
def dilate (k : Kernel) (m : Gray) : Gray :=
  ⟨m.height, m.width, fun i j => (windowVals k m i j).foldl max 0⟩

/-- Models `cv2.erode`: per-pixel minimum over the structuring element. -/
def erode (k : Kernel) (m : Gray) : Gray :=
  ⟨m.height, m.width, fun i j => (windowVals k m i j).foldl min 255⟩

/-- Models `cv2.morphologyEx(m, cv2.MORPH_CLOSE, k)`: dilation followed by
erosion (line 25). -/
def morphClose (k : Kernel) (m : Gray) : Gray :=
  erode k (dilate k m)

/-- Models `cv2.morphologyEx(m, cv2.MORPH_OPEN, k)`: erosion followed by
dilation (line 26). -/
def morphOpen (k : Kernel) (m : Gray) : Gray :=
  dilate k (erode k m)

/-- The noise-cleaning stage, lines 25–26 of the source: closing with the
5×5 all-ones kernel, then opening with the same kernel. -/
def cleanNoise (m : Gray) : Gray :=
  morphOpen kernel (morphClose kernel m)

/-- Twice the signed area of the polygon through `first`, given the
running previous vertex `p` and the remaining vertices: the shoelace sum
Σ (xᵢ·yᵢ₊₁ − xᵢ₊₁·yᵢ) with wrap-around to `first`. -/
def shoelaceAux (first : Pt) : Pt → Contour → Int
  | p, [] => p.x * first.y - first.x * p.y
  | p, q :: rest => (p.x * q.y - q.x * p.y) + shoelaceAux first q rest

/-- Twice the signed shoelace area of a closed polygon over the contour
points. -/
def shoelace : Contour → Int
  | [] => 0
  | p :: rest => shoelaceAux p p rest

/-- Models `cv2.contourArea(cnt)`: the absolute shoelace polygon area over the
contour points, |Σ (xᵢ·yᵢ₊₁ − xᵢ₊₁·yᵢ)| / 2. -/
def contourArea (c : Contour) : ℚ :=
  ((shoelace c).natAbs : ℚ) / 2

/-- Models `min_area = 1000` (line 34). -/
def min_area : ℚ := 1000

/-- Models `valid_contours = [cnt for cnt in contours if cv2.contourArea(cnt) > min_area]`
(line 35). -/
def validContours (contours : List Contour) : List Contour :=
  contours.filter fun cnt => min_area < contourArea cnt

/-- Models `cv2.boundingRect(contour)` (line 46): the minimal up-right rectangle
(x, y, w, h) containing the points, with inclusive extents, so
w = max x − min x + 1 and h = max y − min y + 1.  OpenCV is undefined on
an empty contour; the embedding returns (0, 0, 0, 0) there. -/
def boundingRect : Contour → Int × Int × Int × Int
  | [] => (0, 0, 0, 0)
  | p :: ps =>
    let mnx := ps.foldl (fun a q => min a q.x) p.x
    let mny := ps.foldl (fun a q => min a q.y) p.y
    let mxx := ps.foldl (fun a q => max a q.x) p.x
    let mxy := ps.foldl (fun a q => max a q.y) p.y
    (mnx, mny, mxx - mnx + 1, mxy - mny + 1)

/-- Models `padding = 20` (line 49). -/
def padding : Int := 20

/-- The padded, clamped crop bounds of lines 50–53:
x1 = max(0, x−20), y1 = max(0, y−20),
x2 = min(width, x+w+20), y2 = min(height, y+h+20). -/
def cropBounds (width height x y w h : Int) : Int × Int × Int × Int :=
  (max 0 (x - padding), max 0 (y - padding),
   min width (x + w + padding), min height (y + h + padding))

/-- The crop rectangle (x1, y1, x2, y2) computed for a contour in `img`
(lines 46–53). -/
def cropRect (width height : Nat) (c : Contour) : Int × Int × Int × Int :=
  let (x, y, w, h) := boundingRect c
  cropBounds (width : Int) (height : Int) x y w h

/-- Models `roi = img[y1:y2, x1:x2].copy()` (line 56), as a value: the cropped
colour region.  Its dimensions are (y2−y1, x2−x1); this is the NumPy
slice shape whenever 0 ≤ y1 ≤ y2 ≤ height and 0 ≤ x1 ≤ x2 ≤ width,
which theorem `crop_within_bounds` establishes for every contour whose
points lie in the image. -/
def roiOf (img : Image) (c : Contour) : Image :=
  let (x1, y1, x2, y2) := cropRect img.width img.height c
  ⟨(y2 - y1).toNat, (x2 - x1).toNat,
   fun i j => img.pix (y1.toNat + i) (x1.toNat + j)⟩

/-- Models `contour_shifted = contour - [x1, y1]` (line 62). -/
def shiftContour (c : Contour) (x1 y1 : Int) : Contour :=
  c.map fun p => ⟨p.x - x1, p.y - y1⟩

/-- Lines 59–63: `mask = np.zeros((y2-y1, x2-x1))` then
`cv2.drawContours(mask, [contour_shifted], -1, 255, -1)`: the mask is 255
at every pixel rasterised inside the filled silhouette of the shifted
contour and 0 (its initial value) elsewhere. -/
def maskOf (lib : Lib) (img : Image) (c : Contour) : Gray :=
  let (x1, y1, x2, y2) := cropRect img.width img.height c
  ⟨(y2 - y1).toNat, (x2 - x1).toNat,
   fun i j => if lib.inFill (shiftContour c x1 y1) (j : Int) (i : Int)
              then 255 else 0⟩

/-- Models `roi_rgba = cv2.cvtColor(roi, cv2.COLOR_BGR2BGRA)` (line 66): add an
alpha channel, initially fully opaque (255). -/
def toBGRA (img : Image) : RGBA :=
  ⟨img.height, img.width,
   fun i j => ((img.pix i j).1, (img.pix i j).2.1, (img.pix i j).2.2, 255)⟩

/-- Models `roi_rgba[:, :, 3] = mask` (line 69): overwrite the alpha channel with
the mask values. -/
def setAlpha (a : RGBA) (m : Gray) : RGBA :=
  ⟨a.height, a.width,
   fun i j => ((a.pix i j).1, (a.pix i j).2.1, (a.pix i j).2.2.1, m.pix i j)⟩

/-- Lines 56–69 for one retained contour: crop, build the silhouette
mask, convert to BGRA, overwrite alpha with the mask. -/
def exportOne (lib : Lib) (img : Image) (c : Contour) : RGBA :=
  setAlpha (toBGRA (roiOf img c)) (maskOf lib img c)

/-- Models `f"part_{idx:02d}.png"` (line 72): the index zero-padded to two
digits. -/
def partName (i : Nat) : String :=
  "part_" ++ (if i < 10 then "0" ++ toString i else toString i) ++ ".png"

/-- One saved output: file name, image content, and the per-part
diagnostic line of line 74. -/
structure Export where
  name : String
  image : RGBA
  msg : String

/-- The export loop of lines 44–74, starting at 1-based index `i`: one
saved file per retained contour, in order. -/
def exportAll (lib : Lib) (dir : String) (img : Image) :
    Nat → List Contour → List Export
  | _, [] => []
  | i, c :: rest =>
    { name := partName i
      image := exportOne lib img c
      msg := "Saved part " ++ toString i ++ ": " ++ dir ++ "/" ++ partName i
             ++ " (size: " ++ toString (boundingRect c).2.2.1 ++ "x"
             ++ toString (boundingRect c).2.2.2 ++ ")" }
      :: exportAll lib dir img (i + 1) rest

/-- Models `output_dir = Path(image_path).parent / "segmented_parts"` (line 40). -/
def outputDir (lib : Lib) (path : String) : String :=
  lib.parent path ++ "/segmented_parts"

/-- The observable outcome of one run of `segment_objects`: console lines
printed, whether `output_dir.mkdir` was reached, the files written (in
order), and the Python return value (`none` models Python's `None`). -/
structure RunResult where
  printed : List String
  dirCreated : Bool
  saved : List Export
  ret : Option (List String)

/-- Models `segment_objects(image_path)` (lines 6–76).  `loaded` is the result of
`cv2.imread`: `none` when the image cannot be read.  Python's bare
`return` (line 12) and the fall-through end of the function both return
`None`, modelled as `ret := none`. -/
def segmentObjects (lib : Lib) (path : String) (loaded : Option Image) :
    RunResult :=
  match loaded with
  | none =>
    { printed := ["Error: Could not read image " ++ path]
      dirCreated := false
      saved := []
      ret := none }
  | some img =>
    let gray := grayStage lib img
    let thresh := cleanNoise (threshStage gray)
    let contours := lib.findContours thresh
    let valid := validContours contours
    let dir := outputDir lib path
    let saves := exportAll lib dir img 1 valid
    { printed :=
        ["Image shape: (" ++ toString img.height ++ ", "
           ++ toString img.width ++ ", 3)",
         "Found " ++ toString contours.length ++ " contours",
         "Found " ++ toString valid.length
           ++ " valid objects (area > 1000)"]
        ++ saves.map Export.msg
        ++ ["\nDone! Saved " ++ toString valid.length ++ " parts to " ++ dir]
      dirCreated := true
      saved := saves
      ret := none }

/-- The alpha component of an RGBA pixel. -/
def alphaAt (a : RGBA) (i j : Nat) : Nat :=
  (a.pix i j).2.2.2

/-!
Aliasing model of the export loop.  NumPy arrays are mutable buffers:
`img[y1:y2, x1:x2].copy()` allocates a fresh buffer, `cv2.cvtColor`
returns a fresh buffer, and `roi_rgba[:, :, 3] = mask` mutates one
buffer in place.  A `Store` is the heap of allocated arrays, addressed
by index; the source raster lives at some index and each loop iteration
allocates its crop and its BGRA conversion before mutating only the
latter.
-/

/-- A NumPy array in the aliasing model: dimensions, channel count, and a
value function (channel, row, col) → value. -/
structure MArr where
  height : Nat
  width : Nat
  channels : Nat
  pix : Nat → Nat → Nat → Nat

instance : Inhabited MArr := ⟨⟨0, 0, 0, fun _ _ _ => 0⟩⟩

/-- The heap of allocated arrays, addressed by allocation index. -/
abbrev Store := List MArr

/-- Allocate a fresh array, returning the new heap and the fresh index. -/
def alloc (s : Store) (a : MArr) : Store × Nat :=
  (s ++ [a], s.length)

/-- The array `a` with its alpha channel (channel 3) overwritten by `mask`, the
in-place effect of `roi_rgba[:, :, 3] = mask` (line 69) on one buffer. -/
def setAlphaArr (a : MArr) (mask : Nat → Nat → Nat) : MArr :=
  ⟨a.height, a.width, a.channels,
   fun ch i j => if ch = 3 then mask i j else a.pix ch i j⟩

/-- In-place alpha overwrite of the array at index `id` of the heap. -/
def writeAlpha (s : Store) (id : Nat) (mask : Nat → Nat → Nat) : Store :=
  s.set id (setAlphaArr (s.getD id default) mask)

/-- Models `roi = img[y1:y2, x1:x2].copy()` (line 56) at the buffer level: a
fresh 3-channel array holding the cropped region's values. -/
def roiArr (a : MArr) (c : Contour) : MArr :=
  let (x1, y1, x2, y2) := cropRect a.width a.height c
  ⟨(y2 - y1).toNat, (x2 - x1).toNat, 3,
   fun ch i j => a.pix ch (y1.toNat + i) (x1.toNat + j)⟩

/-- Models `cv2.cvtColor(roi, cv2.COLOR_BGR2BGRA)` (line 66) at the buffer
level: a fresh 4-channel array, alpha initially 255. -/
def bgraArr (a : MArr) : MArr :=
  ⟨a.height, a.width, 4, fun ch i j => if ch = 3 then 255 else a.pix ch i j⟩

/-- The mask values drawn for contour `c` of source array `a`
(lines 59–63), as a value function. -/
def maskFun (lib : Lib) (a : MArr) (c : Contour) : Nat → Nat → Nat :=
  fun i j =>
    let (x1, y1, _, _) := cropRect a.width a.height c
    if lib.inFill (shiftContour c x1 y1) (j : Int) (i : Int) then 255 else 0

/-- One iteration of the export loop (lines 44–74) in the aliasing model:
read the source at `imgId`, allocate the crop copy, allocate its BGRA
conversion, then mutate only the freshly allocated BGRA buffer. -/
def exportStep (lib : Lib) (imgId : Nat) (s : Store) (c : Contour) : Store :=
  let img := s.getD imgId default
  let (s1, roiId) := alloc s (roiArr img c)
  let (s2, rgbaId) := alloc s1 (bgraArr (s1.getD roiId default))
  writeAlpha s2 rgbaId (maskFun lib img c)

/-- The whole export stage in the aliasing model: the loop over the
retained contours. -/
def exportStage (lib : Lib) (imgId : Nat) (s : Store) (cs : List Contour) :
    Store :=
  cs.foldl (exportStep lib imgId) s

/-!
Concrete fixtures used to evaluate the development on closed inputs.
-/

/-- A concrete library instantiation: luminance 0, no contours found,
nothing rasterised inside any silhouette. -/
def libW : Lib :=
  ⟨fun _ => 0, fun _ => [], fun _ _ _ => false, fun _ => "."⟩

/-- A concrete input path. -/
def pathW : String := "a.jpg"

/-- A concrete 1×1 black image. -/
def imgW : Image := ⟨1, 1, fun _ _ => (0, 0, 0)⟩

/-- A concrete 100-wide, 80-high black image. -/
def imgW4 : Image := ⟨80, 100, fun _ _ => (0, 0, 0)⟩

/-- A concrete 200×200 black image. -/
def imgW10 : Image := ⟨200, 200, fun _ _ => (0, 0, 0)⟩

/-- A concrete square contour with corners (0,0) and (100,100). -/
def cW10 : Contour :=
  [Pt.mk 0 0, Pt.mk 100 0, Pt.mk 100 100, Pt.mk 0 100]

/-- A concrete 1×1 3-channel array for the aliasing model. -/
def arrW : MArr := ⟨1, 1, 3, fun _ _ _ => 0⟩

/-! ## Helper lemmas -/

/-- The area filter in integer form: the rational comparison of line 35
holds iff the doubled absolute shoelace sum exceeds 2000. -/
lemma min_area_lt_area_iff (c : Contour) :
    min_area < contourArea c ↔ 2000 < (shoelace c).natAbs := by
  unfold min_area contourArea
  rw [lt_div_iff₀ (by norm_num : (0:ℚ) < 2)]
  norm_cast

/-- A contour passing the area filter is nonempty. -/
lemma ne_nil_of_min_area_lt (c : Contour) (h : min_area < contourArea c) :
    c ≠ [] := by
  rintro rfl
  rw [min_area_lt_area_iff] at h
  simp [shoelace] at h

lemma pt_foldl_min_le_init (f : Pt → Int) (ps : List Pt) :
    ∀ init : Int, ps.foldl (fun a q => min a (f q)) init ≤ init := by
  induction ps with
  | nil => intro init; simp
  | cons q ps ih =>
    intro init
    simp only [List.foldl_cons]
    exact (ih (min init (f q))).trans (min_le_left _ _)

lemma le_pt_foldl_min (f : Pt → Int) (ps : List Pt) :
    ∀ init b : Int, b ≤ init → (∀ q ∈ ps, b ≤ f q) →
      b ≤ ps.foldl (fun a q => min a (f q)) init := by
  induction ps with
  | nil => intro init b h0 _; simpa using h0
  | cons q ps ih =>
    intro init b h0 h
    simp only [List.foldl_cons]
    exact ih (min init (f q)) b
      (le_min h0 (h q (List.mem_cons_self q ps)))
      (fun r hr => h r (List.mem_cons_of_mem q hr))

lemma pt_init_le_foldl_max (f : Pt → Int) (ps : List Pt) :
    ∀ init : Int, init ≤ ps.foldl (fun a q => max a (f q)) init := by
  induction ps with
  | nil => intro init; simp
  | cons q ps ih =>
    intro init
    simp only [List.foldl_cons]
    exact (le_max_left init (f q)).trans (ih (max init (f q)))

lemma pt_foldl_max_le (f : Pt → Int) (ps : List Pt) :
    ∀ init b : Int, init ≤ b → (∀ q ∈ ps, f q ≤ b) →
      ps.foldl (fun a q => max a (f q)) init ≤ b := by
  induction ps with
  | nil => intro init b h0 _; simpa using h0
  | cons q ps ih =>
    intro init b h0 h
    simp only [List.foldl_cons]
    exact ih (max init (f q)) b
      (max_le h0 (h q (List.mem_cons_self q ps)))
      (fun r hr => h r (List.mem_cons_of_mem q hr))

/-- The bounding rectangle of a nonempty contour whose points lie inside
a W×H image sits inside the image and has positive extents. -/
lemma boundingRect_in_bounds (c : Contour) (x y w h : Int)
    (hBR : boundingRect c = (x, y, w, h)) (hne : c ≠ []) (W H : Int)
    (hin : ∀ p ∈ c, 0 ≤ p.x ∧ p.x < W ∧ 0 ≤ p.y ∧ p.y < H) :
    0 ≤ x ∧ 1 ≤ w ∧ x + w ≤ W ∧ 0 ≤ y ∧ 1 ≤ h ∧ y + h ≤ H := by
  match c with
  | [] => exact absurd rfl hne
  | p :: ps =>
    simp only [boundingRect, Prod.mk.injEq] at hBR
    obtain ⟨hx, hy, hw, hh⟩ := hBR
    subst hx hy hw hh
    obtain ⟨hpx0, hpxW, hpy0, hpyH⟩ := hin p (List.mem_cons_self p ps)
    have hinPs : ∀ q ∈ ps, 0 ≤ q.x ∧ q.x < W ∧ 0 ≤ q.y ∧ q.y < H :=
      fun q hq => hin q (List.mem_cons_of_mem p hq)
    have h1 : 0 ≤ ps.foldl (fun a q => min a q.x) p.x :=
      le_pt_foldl_min Pt.x ps p.x 0 hpx0 (fun q hq => (hinPs q hq).1)
    have h2 : ps.foldl (fun a q => min a q.x) p.x ≤ p.x :=
      pt_foldl_min_le_init Pt.x ps p.x
    have h3 : p.x ≤ ps.foldl (fun a q => max a q.x) p.x :=
      pt_init_le_foldl_max Pt.x ps p.x
    have h4 : ps.foldl (fun a q => max a q.x) p.x ≤ W - 1 :=
      pt_foldl_max_le Pt.x ps p.x (W - 1) (by omega)
        (fun q hq => by have := (hinPs q hq).2.1; omega)
    have h5 : 0 ≤ ps.foldl (fun a q => min a q.y) p.y :=
      le_pt_foldl_min Pt.y ps p.y 0 hpy0 (fun q hq => (hinPs q hq).2.2.1)
    have h6 : ps.foldl (fun a q => min a q.y) p.y ≤ p.y :=
      pt_foldl_min_le_init Pt.y ps p.y
    have h7 : p.y ≤ ps.foldl (fun a q => max a q.y) p.y :=
      pt_init_le_foldl_max Pt.y ps p.y
    have h8 : ps.foldl (fun a q => max a q.y) p.y ≤ H - 1 :=
      pt_foldl_max_le Pt.y ps p.y (H - 1) (by omega)
        (fun q hq => by have := (hinPs q hq).2.2.2; omega)
    omega

/-- The names produced by the export loop starting at index `i`: one
`part_NN.png` per contour, numbered consecutively. -/
lemma exportAll_names (lib : Lib) (dir : String) (img : Image)
    (cs : List Contour) :
    ∀ i : Nat, (exportAll lib dir img i cs).map Export.name =
      (List.range cs.length).map (fun k => partName (i + k)) := by
  induction cs with
  | nil => intro i; simp [exportAll]
  | cons c cs ih =>
    intro i
    simp only [exportAll, List.map_cons, ih (i + 1), List.length_cons,
      List.range_succ_eq_map, List.map_map]
    congr 1
    refine List.map_congr_left (fun k _ => ?_)
    simp only [Function.comp_apply]
    congr 1
    omega

/-- The images produced by the export loop: one `exportOne` result per
contour, in order. -/
lemma exportAll_images (lib : Lib) (dir : String) (img : Image)
    (cs : List Contour) :
    ∀ i : Nat, (exportAll lib dir img i cs).map Export.image =
      cs.map (exportOne lib img) := by
  induction cs with
  | nil => intro i; simp [exportAll]
  | cons c cs ih => intro i; simp [exportAll, ih (i + 1)]

/-! ## Claims -/

/-- C2 counterexample: the claim says a grayscale pixel of intensity
exactly 240 is background (mapped to 0); the code's inverse-binary
threshold at 240 maps it to 255 (foreground). -/
theorem thresh_at_240_is_foreground :
    threshPix 240 = 255 ∧ threshPix 240 ≠ 0 :=
  ⟨by decide, by decide⟩

/-- C2 (amended): in the binarization stage, for every pixel of the
grayscale image, the pixel is mapped to 255 (foreground) iff its
intensity is at most 240, and to 0 (background) iff its intensity is
strictly greater than 240; in particular 240 itself is foreground. -/
theorem thresh_foreground_iff_le_240 (g : Gray) (i j : Nat) :
    ((threshStage g).pix i j = 255 ↔ g.pix i j ≤ 240) ∧
    ((threshStage g).pix i j = 0 ↔ 240 < g.pix i j) := by
  simp only [threshStage, threshPix]
  by_cases h : 240 < g.pix i j
  · simp [h]
  · simp [h]
    omega

/-- C5: a contour is retained iff its shoelace polygon area strictly
exceeds 1000; every contour of area at most 1000 is discarded; the
retained contours are a sublist of the extraction output, keeping its
discovery order. -/
theorem valid_contours_filter_spec (contours : List Contour) :
    (∀ c, c ∈ validContours contours ↔
        c ∈ contours ∧ min_area < contourArea c) ∧
    (validContours contours).Sublist contours := by
  constructor
  · intro c
    simp [validContours, List.mem_filter]
  · exact List.filter_sublist contours

/-- C6: when the image cannot be read, `segment_objects` prints the
"Error: Could not read image" message and returns None, with no output
directory created and no file written. -/
theorem load_failure_no_output (lib : Lib) (path : String) :
    segmentObjects lib path none =
      { printed := ["Error: Could not read image " ++ path]
        dirCreated := false
        saved := []
        ret := none } := rfl

/-- C1 counterexample: on a concrete input whose loading succeeds, the
Python function returns `None` (modelled `none`), not the list of files
it saved. -/
theorem segment_objects_returns_none_cex :
    (segmentObjects libW pathW (some imgW)).ret ≠
      some ((segmentObjects libW pathW (some imgW)).saved.map
        Export.name) := by
  simp [segmentObjects]

/-- C1 (amended): for every input on which loading succeeds,
`segment_objects` saves one file per retained contour in export order,
named `part_01.png`, `part_02.png`, … with content produced by the
per-object export — but it returns `None`, not the list of saved
files. -/
theorem segment_objects_saves_in_order (lib : Lib) (path : String)
    (img : Image) :
    (segmentObjects lib path (some img)).ret = none ∧
    (segmentObjects lib path (some img)).saved.map Export.name =
      (List.range (validContours (lib.findContours (cleanNoise
        (threshStage (grayStage lib img))))).length).map
        (fun k => partName (1 + k)) ∧
    (segmentObjects lib path (some img)).saved.map Export.image =
      (validContours (lib.findContours (cleanNoise
        (threshStage (grayStage lib img))))).map (exportOne lib img) :=
  ⟨rfl,
   exportAll_names lib (outputDir lib path) img _ 1,
   exportAll_images lib (outputDir lib path) img _ 1⟩

/-- C7: when the image loads but zero contours pass the area filter,
the output directory is still created, zero files are written, and the
"0 valid objects" and "0 parts" summaries are printed. -/
theorem no_objects_dir_created (lib : Lib) (path : String) (img : Image)
    (h : validContours (lib.findContours (cleanNoise
      (threshStage (grayStage lib img)))) = []) :
    (segmentObjects lib path (some img)).dirCreated = true ∧
    (segmentObjects lib path (some img)).saved = [] ∧
    "Found 0 valid objects (area > 1000)" ∈
      (segmentObjects lib path (some img)).printed ∧
    ("\nDone! Saved 0 parts to " ++ outputDir lib path) ∈
      (segmentObjects lib path (some img)).printed := by
  have h0 : toString (0 : Nat) = "0" := rfl
  have hf : "Found " ++ "0" ++ " valid objects (area > 1000)" =
      "Found 0 valid objects (area > 1000)" := rfl
  have hd : "\nDone! Saved " ++ "0" ++ " parts to " =
      "\nDone! Saved 0 parts to " := rfl
  simp only [segmentObjects, h, exportAll, List.map_nil, List.length_nil,
    h0, hf, hd, List.cons_append, List.nil_append]
  refine ⟨trivial, trivial, ?_, ?_⟩
  · simp
  · simp

/-- C7 witness: a concrete run with no contours found. -/
theorem no_objects_dir_created_witness :
    (segmentObjects libW pathW (some imgW)).dirCreated = true ∧
    (segmentObjects libW pathW (some imgW)).saved = [] ∧
    "Found 0 valid objects (area > 1000)" ∈
      (segmentObjects libW pathW (some imgW)).printed ∧
    ("\nDone! Saved 0 parts to " ++ outputDir libW pathW) ∈
      (segmentObjects libW pathW (some imgW)).printed :=
  no_objects_dir_created libW pathW imgW rfl

/-- C4: for every retained contour, the padded crop bounds are
x1 = max(0, x−20), y1 = max(0, y−20), x2 = min(width, x+w+20),
y2 = min(height, y+h+20), and they satisfy 0 ≤ x1 ≤ x2 ≤ width and
0 ≤ y1 ≤ y2 ≤ height: the crop never exceeds the source image bounds. -/
theorem crop_within_bounds (img : Image) (c : Contour)
    (x y w h x1 y1 x2 y2 : Int)
    (hBR : boundingRect c = (x, y, w, h))
    (hCR : cropRect img.width img.height c = (x1, y1, x2, y2))
    (hne : c ≠ [])
    (hin : ∀ p ∈ c, 0 ≤ p.x ∧ p.x < (img.width : Int) ∧
      0 ≤ p.y ∧ p.y < (img.height : Int)) :
    x1 = max 0 (x - 20) ∧ y1 = max 0 (y - 20) ∧
    x2 = min (img.width : Int) (x + w + 20) ∧
    y2 = min (img.height : Int) (y + h + 20) ∧
    0 ≤ x1 ∧ x1 ≤ x2 ∧ x2 ≤ (img.width : Int) ∧
    0 ≤ y1 ∧ y1 ≤ y2 ∧ y2 ≤ (img.height : Int) := by
  have hb := boundingRect_in_bounds c x y w h hBR hne
    (img.width : Int) (img.height : Int) hin
  simp only [cropRect, hBR, cropBounds, padding, Prod.mk.injEq] at hCR
  obtain ⟨e1, e2, e3, e4⟩ := hCR
  obtain ⟨b1, b2, b3, b4, b5, b6⟩ := hb
  refine ⟨e1.symm, e2.symm, e3.symm, e4.symm, ?_, ?_, ?_, ?_, ?_, ?_⟩
  all_goals omega

/-- C4 witness: a one-point contour at (30, 40) in a 100×80 image. -/
theorem crop_within_bounds_witness :
    boundingRect [Pt.mk 30 40] = (30, 40, 1, 1) ∧
    ((10 : Int) = max 0 (30 - 20) ∧ (20 : Int) = max 0 (40 - 20) ∧
     (51 : Int) = min (imgW4.width : Int) (30 + 1 + 20) ∧
     (61 : Int) = min (imgW4.height : Int) (40 + 1 + 20) ∧
     (0 : Int) ≤ 10 ∧ (10 : Int) ≤ 51 ∧ (51 : Int) ≤ (imgW4.width : Int) ∧
     (0 : Int) ≤ 20 ∧ (20 : Int) ≤ 61 ∧ (61 : Int) ≤ (imgW4.height : Int)) :=
  ⟨by decide,
   crop_within_bounds imgW4 [Pt.mk 30 40] 30 40 1 1 10 20 51 61
     (by decide) (by decide) (by decide) (by decide)⟩

/-- C10: for every retained contour (area filter passed, points inside
the image), the crop is non-degenerate: x1 < x2 and y1 < y2, and the
per-object mask and the cropped region are nonempty with equal
dimensions. -/
theorem crop_nondegenerate (lib : Lib) (img : Image) (c : Contour)
    (x1 y1 x2 y2 : Int)
    (hCR : cropRect img.width img.height c = (x1, y1, x2, y2))
    (hin : ∀ p ∈ c, 0 ≤ p.x ∧ p.x < (img.width : Int) ∧
      0 ≤ p.y ∧ p.y < (img.height : Int))
    (hA : min_area < contourArea c) :
    x1 < x2 ∧ y1 < y2 ∧
    (maskOf lib img c).height = (roiOf img c).height ∧
    (maskOf lib img c).width = (roiOf img c).width ∧
    0 < (roiOf img c).height ∧ 0 < (roiOf img c).width := by
  have hne := ne_nil_of_min_area_lt c hA
  rcases hbr : boundingRect c with ⟨x, y, w, h⟩
  have hb := boundingRect_in_bounds c x y w h hbr hne
    (img.width : Int) (img.height : Int) hin
  simp only [cropRect, hbr, cropBounds, padding, Prod.mk.injEq] at hCR
  obtain ⟨e1, e2, e3, e4⟩ := hCR
  obtain ⟨b1, b2, b3, b4, b5, b6⟩ := hb
  refine ⟨by omega, by omega, ?_, ?_, ?_, ?_⟩
  · simp only [maskOf, roiOf, cropRect, hbr, cropBounds, padding]
  · simp only [maskOf, roiOf, cropRect, hbr, cropBounds, padding]
  · simp only [roiOf, cropRect, hbr, cropBounds, padding]
    omega
  · simp only [roiOf, cropRect, hbr, cropBounds, padding]
    omega

/-- C10 witness: a 100×100 square contour (area 10000) in a 200×200
image. -/
theorem crop_nondegenerate_witness :
    (0 : Int) < 121 ∧ (0 : Int) < 121 ∧
    (maskOf libW imgW10 cW10).height = (roiOf imgW10 cW10).height ∧
    (maskOf libW imgW10 cW10).width = (roiOf imgW10 cW10).width ∧
    0 < (roiOf imgW10 cW10).height ∧ 0 < (roiOf imgW10 cW10).width :=
  crop_nondegenerate libW imgW10 cW10 0 0 121 121 (by decide) (by decide)
    ((min_area_lt_area_iff cW10).mpr (by decide))

/-- C3: in every exported RGBA image, a pixel's alpha is 255 iff the
pixel lies inside the filled silhouette of the object's contour
translated into the crop frame (shifted by −(x1, y1)), and 0 iff it lies
outside it. -/
theorem alpha_matches_silhouette (lib : Lib) (img : Image) (c : Contour)
    (x1 y1 x2 y2 : Int)
    (hCR : cropRect img.width img.height c = (x1, y1, x2, y2))
    (i j : Nat) :
    (alphaAt (exportOne lib img c) i j = 255 ↔
      lib.inFill (shiftContour c x1 y1) (j : Int) (i : Int) = true) ∧
    (alphaAt (exportOne lib img c) i j = 0 ↔
      lib.inFill (shiftContour c x1 y1) (j : Int) (i : Int) = false) := by
  have hα : alphaAt (exportOne lib img c) i j = (maskOf lib img c).pix i j :=
    rfl
  rw [hα]
  simp only [maskOf, hCR]
  cases hf : lib.inFill (shiftContour c x1 y1) (j : Int) (i : Int) <;>
    simp [hf]

/-- C3 witness: the empty contour in a 1×1 image, with a library whose
fill test is empty. -/
theorem alpha_matches_silhouette_witness :
    (alphaAt (exportOne libW imgW []) 0 0 = 255 ↔
      libW.inFill (shiftContour [] 0 0) ((0 : Nat) : Int)
        ((0 : Nat) : Int) = true) ∧
    (alphaAt (exportOne libW imgW []) 0 0 = 0 ↔
      libW.inFill (shiftContour [] 0 0) ((0 : Nat) : Int)
        ((0 : Nat) : Int) = false) :=
  alpha_matches_silhouette libW imgW [] 0 0 1 1 (by decide) 0 0

/-- One export iteration only allocates fresh buffers and mutates the
freshest one, so every previously existing heap entry is unchanged. -/
lemma exportStep_getElem (lib : Lib) (imgId : Nat) (s : Store) (c : Contour)
    (i : Nat) (h : i < s.length) :
    (exportStep lib imgId s c)[i]? = s[i]? := by
  simp only [exportStep, alloc, writeAlpha]
  rw [List.getElem?_set_ne (by simp; omega)]
  rw [List.getElem?_append_left (by simp; omega),
    List.getElem?_append_left h]

/-- One export iteration never shrinks the heap. -/
lemma exportStep_length_le (lib : Lib) (imgId : Nat) (s : Store)
    (c : Contour) : s.length ≤ (exportStep lib imgId s c).length := by
  simp only [exportStep, alloc, writeAlpha]
  simp

/-- The whole export loop leaves every heap entry that existed before it
unchanged. -/
lemma exportStage_getElem (lib : Lib) (imgId : Nat) (cs : List Contour) :
    ∀ (s : Store) (i : Nat), i < s.length →
      (exportStage lib imgId s cs)[i]? = s[i]? := by
  induction cs with
  | nil => intro s i h; rfl
  | cons c cs ih =>
    intro s i h
    have h2 : i < (exportStep lib imgId s c).length :=
      lt_of_lt_of_le h (exportStep_length_le lib imgId s c)
    calc (exportStage lib imgId s (c :: cs))[i]?
        = (exportStage lib imgId (exportStep lib imgId s c) cs)[i]? := rfl
      _ = (exportStep lib imgId s c)[i]? := ih _ i h2
      _ = s[i]? := exportStep_getElem lib imgId s c i h

/-- C9: each crop is a private copy — the export stage leaves the source
raster's buffer (and every buffer that existed before the stage,
including earlier crops) unchanged, and overwriting the alpha channel of
one buffer leaves every other buffer unchanged. -/
theorem export_stage_preserves_source (lib : Lib) (imgId : Nat) (s : Store)
    (cs : List Contour) :
    (∀ i, i < s.length → (exportStage lib imgId s cs)[i]? = s[i]?) ∧
    (∀ id m (j : Nat), j ≠ id → (writeAlpha s id m)[j]? = s[j]?) :=
  ⟨fun i h => exportStage_getElem lib imgId cs s i h,
   fun _ _ _ h => List.getElem?_set_ne (Ne.symm h)⟩

/-- C9 witness: a one-array heap run through one export iteration. -/
theorem export_stage_preserves_source_witness :
    (exportStage libW 0 [arrW] [[]])[0]? = [arrW][0]? ∧
    (writeAlpha [arrW] 1 (fun _ _ => 0))[0]? = [arrW][0]? :=
  ⟨(export_stage_preserves_source libW 0 [arrW] [[]]).1 0 (by decide),
   (export_stage_preserves_source libW 0 [arrW] [[]]).2 1 (fun _ _ => 0) 0
     (by decide)⟩

/-- C8: the noise-cleaning stage is a morphological closing (dilation
then erosion) followed by a morphological opening (erosion then
dilation), both with the same 5×5 all-ones structuring element; closing
precedes opening. -/
theorem clean_close_then_open :
    (∀ m : Gray, cleanNoise m =
        dilate kernel (erode kernel (erode kernel (dilate kernel m)))) ∧
    kernel.rows = 5 ∧ kernel.cols = 5 ∧ (∀ i j : Nat, kernel.val i j = 1) := by
  refine ⟨fun m => rfl, rfl, rfl, fun i j => rfl⟩
